import Mathlib

/-
Verification of the scheduling model of PavesicL/scheduling_automation.

The development shallowly embeds the source modules:
  - worker.py   : the Worker record and the ordered workplace catalog;
  - days.py     : the Day value (calendar date with workday classification)
                  and generate_day_list;
  - parsing.py  : parse_work_dates;
  - optimize.py : the CP-SAT model built by construct_and_optimize, embedded
                  as a satisfaction predicate over a valuation of the model
                  variables (boolean assignment variables plus the auxiliary
                  integer/boolean variables), one predicate per constraint
                  block, mirroring the model.Add calls line by line;
  - generate_schedule.py : the pre-solve availability-length validation.

A solver solution is any valuation satisfying the constraint predicates, so
theorems quantified over satisfying valuations cover every schedule the
solver can return.
-/

/-- Worker record from worker.py: name, surname, eligible workplaces,
per-day availability, signed weekend-package preference, special request. -/
structure Worker where
  name : String
  surname : String
  workplaces : List String
  work_dates : List Bool
  weekend_package : Int
  special_request : String
deriving Repr, DecidableEq

/-- worker.py: ALL_WORKPLACES, the fixed alphabetically ordered catalog. -/
def ALL_WORKPLACES : List String := ["NZV", "POPS", "PORODNA", "TX"]

/-- optimize.py line 63: ALL_WORKPLACES.index("NZV"). -/
def nzv_index : Nat := ALL_WORKPLACES.indexOf "NZV"

/-- optimize.py line 64: ALL_WORKPLACES.index("PORODNA"). -/
def porodna_index : Nat := ALL_WORKPLACES.indexOf "PORODNA"

/-- optimize.py line 65: ALL_WORKPLACES.index("POPS"). -/
def pops_index : Nat := ALL_WORKPLACES.indexOf "POPS"

/-- optimize.py line 66: ALL_WORKPLACES.index("TX"). -/
def tx_index : Nat := ALL_WORKPLACES.indexOf "TX"

/-- The two day attributes the optimizer reads from a Day object:
its workday classification and its ISO weekday number. -/
structure DayInfo where
  is_workday : Bool
  isoweekday : Nat
deriving Repr, DecidableEq

/-- Default Worker used for positional list access in the embedding. -/
def defaultWorker : Worker := ⟨"", "", [], [], 0, ""⟩

/-- Default DayInfo used for positional list access in the embedding. -/
def defaultDayInfo : DayInfo := ⟨false, 0⟩

/-- A boolean model variable read as the integer 0 or 1, the way CP-SAT
treats boolean variables inside linear expressions. -/
def bi (b : Bool) : Int := if b then 1 else 0

/-- Sum of f over the index range 0, ..., n-1, the shape of every
Python sum(...) over range(n) in optimize.py. -/
def isum (n : Nat) (f : Nat → Int) : Int := ((List.range n).map f).sum

/-- A valuation of all model variables created by construct_and_optimize:
the boolean assignment variables work[ww, dd, pp] and every auxiliary
variable, indexed the way optimize.py indexes them.  A solver solution is
a valuation satisfying the constraint predicates below. -/
structure ModelVal where
  work : Nat → Nat → Nat → Bool
  and_var : Nat → Nat → Nat → Nat → Bool
  assigned_weekend_package : Nat → Bool
  total_weekend_penalty : Int
  total_work_site : Nat → Nat → Int
  max_work_site : Nat → Int
  min_work_site : Nat → Int
  imbalance : Nat → Int
  total_imbalance : Int
  total_work : Nat → Int
  max_work : Int
  min_work : Int

/-- optimize.py lines 77-86: for every day, add_exactly_one over the
workers for NZV, PORODNA and TX (exactly one literal true, i.e. the 0/1
sum equals 1), and for POPS the sum equals 1 on workdays, 0 otherwise. -/
def exactly_one_sat (v : ModelVal) (num_workers : Nat)
    (day_list : List DayInfo) : Prop :=
  ∀ dd < day_list.length,
    isum num_workers (fun ww => bi (v.work ww dd nzv_index)) = 1
  ∧ isum num_workers (fun ww => bi (v.work ww dd porodna_index)) = 1
  ∧ isum num_workers (fun ww => bi (v.work ww dd tx_index)) = 1
  ∧ ((day_list.getD dd defaultDayInfo).is_workday = true →
      isum num_workers (fun ww => bi (v.work ww dd pops_index)) = 1)
  ∧ ((day_list.getD dd defaultDayInfo).is_workday = false →
      isum num_workers (fun ww => bi (v.work ww dd pops_index)) = 0)

/-- optimize.py lines 89-93: an assignment variable for a workplace outside
the worker's eligible set is forced to 0. -/
def eligibility_sat (v : ModelVal) (worker_list : List Worker)
    (num_days : Nat) : Prop :=
  ∀ ww < worker_list.length, ∀ dd < num_days, ∀ pp < ALL_WORKPLACES.length,
    ALL_WORKPLACES.getD pp "" ∉ (worker_list.getD ww defaultWorker).workplaces →
    v.work ww dd pp = false

/-- optimize.py lines 96-101: the worker's 0/1 assignment sum over the
workplaces on a day is at most 1 when available, and 0 when unavailable. -/
def availability_sat (v : ModelVal) (worker_list : List Worker)
    (num_days : Nat) : Prop :=
  ∀ ww < worker_list.length, ∀ dd < num_days,
    ((worker_list.getD ww defaultWorker).work_dates.getD dd false = true →
      isum ALL_WORKPLACES.length (fun pp => bi (v.work ww dd pp)) ≤ 1)
  ∧ ((worker_list.getD ww defaultWorker).work_dates.getD dd false = false →
      isum ALL_WORKPLACES.length (fun pp => bi (v.work ww dd pp)) = 0)

/-- optimize.py lines 104-107: for every worker and every day except the
last, work[NZV] + work[PORODNA] + work[POPS] on day dd plus the sum of all
assignments on day dd+1 is at most 1. -/
def rest_sat (v : ModelVal) (num_workers num_days : Nat) : Prop :=
  ∀ ww < num_workers, ∀ dd < num_days - 1,
    bi (v.work ww dd nzv_index) + bi (v.work ww dd porodna_index)
      + bi (v.work ww dd pops_index)
      + isum ALL_WORKPLACES.length (fun pp => bi (v.work ww (dd + 1) pp)) ≤ 1

/-- The spec's indicator reading of the rest rule: a worker assigned to an
intensive workplace (NZV, PORODNA or POPS) on day dd has zero assignments
at any workplace on day dd+1. -/
def rest_indicator (v : ModelVal) (num_workers num_days : Nat) : Prop :=
  ∀ ww < num_workers, ∀ dd < num_days - 1,
    (v.work ww dd nzv_index = true ∨ v.work ww dd porodna_index = true
      ∨ v.work ww dd pops_index = true) →
    isum ALL_WORKPLACES.length (fun pp => bi (v.work ww (dd + 1) pp)) = 0

/-- optimize.py line 114: the indices of the Fridays whose Sunday (two days
later) is still inside the day list. -/
def fridays (day_list : List DayInfo) : List Nat :=
  (day_list.enum.filter
    (fun p => p.2.isoweekday == 5 && decide (p.1 + 2 < day_list.length))).map
    Prod.fst

/-- optimize.py lines 123-128: the four qualifying (Friday site, Sunday
site) combinations of the two rest-care workplaces. -/
def site_combinations : List (Nat × Nat) :=
  [(porodna_index, porodna_index), (nzv_index, nzv_index),
   (nzv_index, porodna_index), (porodna_index, nzv_index)]

/-- optimize.py lines 119-153, the weekend-package block: for every worker,
each per-Friday per-combination and_var is enforced in both directions
against the conjunction of the Friday and Sunday assignment variables
(AddBoolAnd/AddBoolOr with OnlyEnforceIf), the sum of a worker's and_vars
is at most 1, the worker-level assigned_weekend_package indicator is
enforced in both directions against the disjunction of the and_vars, and
total_weekend_penalty (domain [-num_workers, num_workers]) equals the sum
over workers of assigned_weekend_package * weekend_package * (-1). -/
def weekend_sat (v : ModelVal) (worker_list : List Worker)
    (day_list : List DayInfo) : Prop :=
  (∀ ww < worker_list.length, ∀ dd ∈ fridays day_list, ∀ c ∈ site_combinations,
    (v.and_var ww dd c.1 c.2 = true →
      v.work ww dd c.1 = true ∧ v.work ww (dd + 2) c.2 = true)
  ∧ (v.and_var ww dd c.1 c.2 = false →
      v.work ww dd c.1 = false ∨ v.work ww (dd + 2) c.2 = false))
  ∧ (∀ ww < worker_list.length,
      ((fridays day_list).map (fun dd =>
        (site_combinations.map (fun c => bi (v.and_var ww dd c.1 c.2))).sum)).sum ≤ 1)
  ∧ (∀ ww < worker_list.length,
    (v.assigned_weekend_package ww = true →
      ∃ dd ∈ fridays day_list, ∃ c ∈ site_combinations,
        v.and_var ww dd c.1 c.2 = true)
  ∧ (v.assigned_weekend_package ww = false →
      ∀ dd ∈ fridays day_list, ∀ c ∈ site_combinations,
        v.and_var ww dd c.1 c.2 = false))
  ∧ (-(worker_list.length : Int) ≤ v.total_weekend_penalty
      ∧ v.total_weekend_penalty ≤ (worker_list.length : Int))
  ∧ v.total_weekend_penalty = isum worker_list.length (fun ww =>
      bi (v.assigned_weekend_package ww)
        * (worker_list.getD ww defaultWorker).weekend_package * (-1))

/-- optimize.py line 170: the catalog indices of the workplaces the worker
is eligible for, in catalog order. -/
def eligible_indices (w : Worker) : List Nat :=
  (List.range ALL_WORKPLACES.length).filter
    (fun pp => decide (ALL_WORKPLACES.getD pp "" ∈ w.workplaces))

/-- optimize.py lines 158-192, the balance block: for every worker and
every eligible workplace, total_work_site (domain [0, num_days]) equals the
count of that worker's assignments there; max_work_site / min_work_site
(domain [0, num_days]) satisfy AddMaxEquality / AddMinEquality against the
list of eligible totals (upper/lower bound plus membership); the imbalance
(domain [0, num_days]) equals max - min; total_imbalance (domain
[0, num_workers * num_days]) equals the sum of the imbalances. -/
def imbalance_sat (v : ModelVal) (worker_list : List Worker)
    (num_days : Nat) : Prop :=
  (∀ ww < worker_list.length,
    ∀ pp ∈ eligible_indices (worker_list.getD ww defaultWorker),
      (0 ≤ v.total_work_site ww pp ∧ v.total_work_site ww pp ≤ (num_days : Int))
    ∧ v.total_work_site ww pp = isum num_days (fun dd => bi (v.work ww dd pp)))
  ∧ (∀ ww < worker_list.length,
      (0 ≤ v.max_work_site ww ∧ v.max_work_site ww ≤ (num_days : Int))
    ∧ (∀ x ∈ (eligible_indices (worker_list.getD ww defaultWorker)).map
        (v.total_work_site ww), x ≤ v.max_work_site ww)
    ∧ v.max_work_site ww ∈ (eligible_indices (worker_list.getD ww defaultWorker)).map
        (v.total_work_site ww)
    ∧ (0 ≤ v.min_work_site ww ∧ v.min_work_site ww ≤ (num_days : Int))
    ∧ (∀ x ∈ (eligible_indices (worker_list.getD ww defaultWorker)).map
        (v.total_work_site ww), v.min_work_site ww ≤ x)
    ∧ v.min_work_site ww ∈ (eligible_indices (worker_list.getD ww defaultWorker)).map
        (v.total_work_site ww)
    ∧ (0 ≤ v.imbalance ww ∧ v.imbalance ww ≤ (num_days : Int))
    ∧ v.imbalance ww = v.max_work_site ww - v.min_work_site ww)
  ∧ (0 ≤ v.total_imbalance
      ∧ v.total_imbalance ≤ (worker_list.length : Int) * (num_days : Int))
  ∧ v.total_imbalance = isum worker_list.length (fun ww => v.imbalance ww)

/-- Fold-based maximum of a list of integers; agrees with the mathematical
maximum on non-empty lists (Python max). -/
def listMaxOf (l : List Int) : Int := l.foldr max (l.headD 0)

/-- Fold-based minimum of a list of integers; agrees with the mathematical
minimum on non-empty lists (Python min). -/
def listMinOf (l : List Int) : Int := l.foldr min (l.headD 0)

/-- optimize.py lines 200-210, the objective block: for every worker,
total_work (domain [0, num_days * max(workplace_weights)]) equals the
weighted assignment sum over all days and all catalog workplaces, and
max_work / min_work satisfy AddMaxEquality / AddMinEquality against the
per-worker totals. -/
def objective_link_sat (v : ModelVal) (num_workers num_days : Nat)
    (workplace_weights : List Int) : Prop :=
  (∀ ww < num_workers,
      (0 ≤ v.total_work ww
        ∧ v.total_work ww ≤ (num_days : Int) * listMaxOf workplace_weights)
    ∧ v.total_work ww = isum num_days (fun dd =>
        isum ALL_WORKPLACES.length (fun pp =>
          workplace_weights.getD pp 0 * bi (v.work ww dd pp))))
  ∧ (0 ≤ v.max_work ∧ v.max_work ≤ (num_days : Int) * listMaxOf workplace_weights)
  ∧ (∀ ww < num_workers, v.total_work ww ≤ v.max_work)
  ∧ (∃ ww, ww < num_workers ∧ v.total_work ww = v.max_work)
  ∧ (0 ≤ v.min_work ∧ v.min_work ≤ (num_days : Int) * listMaxOf workplace_weights)
  ∧ (∀ ww < num_workers, v.min_work ≤ v.total_work ww)
  ∧ (∃ ww, ww < num_workers ∧ v.total_work ww = v.min_work)

/-- The conjunction of the four hard-constraint blocks of the model; every
solution the solver can accept satisfies it. -/
def hard_sat (v : ModelVal) (worker_list : List Worker)
    (day_list : List DayInfo) : Prop :=
  exactly_one_sat v worker_list.length day_list
  ∧ eligibility_sat v worker_list day_list.length
  ∧ availability_sat v worker_list day_list.length
  ∧ rest_sat v worker_list.length day_list.length

/-- optimize.py line 213: the minimized objective expression. -/
def objectiveExpr (v : ModelVal)
    (penalty_weekend_package penalty_equal_distribution : Int) : Int :=
  (v.max_work - v.min_work)
    + v.total_weekend_penalty * penalty_weekend_package
    + v.total_imbalance * penalty_equal_distribution

instance exactly_one_sat_dec (v : ModelVal) (n : Nat) (dl : List DayInfo) :
    Decidable (exactly_one_sat v n dl) := by
  unfold exactly_one_sat; infer_instance

instance eligibility_sat_dec (v : ModelVal) (wl : List Worker) (nd : Nat) :
    Decidable (eligibility_sat v wl nd) := by
  unfold eligibility_sat; apply Nat.decidableBallLT

instance availability_sat_dec (v : ModelVal) (wl : List Worker) (nd : Nat) :
    Decidable (availability_sat v wl nd) := by
  unfold availability_sat; infer_instance

instance rest_sat_dec (v : ModelVal) (nw nd : Nat) :
    Decidable (rest_sat v nw nd) := by
  unfold rest_sat; infer_instance

instance rest_indicator_dec (v : ModelVal) (nw nd : Nat) :
    Decidable (rest_indicator v nw nd) := by
  unfold rest_indicator; infer_instance

instance weekend_sat_dec (v : ModelVal) (wl : List Worker) (dl : List DayInfo) :
    Decidable (weekend_sat v wl dl) := by
  unfold weekend_sat; infer_instance

instance imbalance_sat_dec (v : ModelVal) (wl : List Worker) (nd : Nat) :
    Decidable (imbalance_sat v wl nd) := by
  unfold imbalance_sat; infer_instance

instance objective_link_sat_dec (v : ModelVal) (nw nd : Nat) (w : List Int) :
    Decidable (objective_link_sat v nw nd w) := by
  unfold objective_link_sat; infer_instance

instance hard_sat_dec (v : ModelVal) (wl : List Worker) (dl : List DayInfo) :
    Decidable (hard_sat v wl dl) := by
  unfold hard_sat; infer_instance

/-- Number of workers a solution assigns to workplace pp on day dd. -/
def countAssigned (v : ModelVal) (num_workers dd pp : Nat) : Nat :=
  ((List.range num_workers).filter (fun ww => v.work ww dd pp)).length

/-- How many times a solution assigns worker ww to workplace pp across all
days, read directly off the assignment variables (spec words: the count of
that worker's true assignment variables at that workplace). -/
def spec_site_total (v : ModelVal) (num_days ww pp : Nat) : Int :=
  isum num_days (fun dd => bi (v.work ww dd pp))

/-- A worker's weighted total read directly off the assignment variables
(spec words: the sum over all days and all catalog workplaces of the weight
for that workplace times the assignment variable). -/
def weighted_total_of (v : ModelVal) (workplace_weights : List Int)
    (num_days ww : Nat) : Int :=
  isum num_days (fun dd =>
    isum ALL_WORKPLACES.length (fun pp =>
      workplace_weights.getD pp 0 * bi (v.work ww dd pp)))

/-- Maximum of f over the index range 0, ..., n-1 (meaningful for n > 0). -/
def maxOver (n : Nat) (f : Nat → Int) : Int := listMaxOf ((List.range n).map f)

/-- Minimum of f over the index range 0, ..., n-1 (meaningful for n > 0). -/
def minOver (n : Nat) (f : Nat → Int) : Int := listMinOf ((List.range n).map f)

/-- The CP-SAT solver status values, with their ortools integer codes. -/
inductive CpStatus where
  | UNKNOWN
  | MODEL_INVALID
  | FEASIBLE
  | INFEASIBLE
  | OPTIMAL
deriving Repr, DecidableEq

/-- The ortools integer code of each status, which is what the f-string in
the raise message formats. -/
def statusCode : CpStatus → Nat
  | .UNKNOWN => 0
  | .MODEL_INVALID => 1
  | .FEASIBLE => 2
  | .INFEASIBLE => 3
  | .OPTIMAL => 4

/-- worker.py lines 76-77: Worker.__repr__, the display identity written
into the schedule cells. -/
def worker_repr (w : Worker) : String := w.name ++ " " ++ w.surname

/-- optimize.py lines 225-234: the cells appended for one (day, workplace)
slot: the single NONE marker for POPS on a non-workday (the break fires on
the first worker), otherwise the repr of every worker whose assignment
variable is true, in worker order. -/
def extract_cells (v : ModelVal) (worker_list : List Worker)
    (day : DayInfo) (dd pp : Nat) : List String :=
  if ALL_WORKPLACES.getD pp "" == "POPS" && !day.is_workday then ["NONE"]
  else (worker_list.enum.filter (fun p => v.work p.1 dd pp)).map
    (fun p => worker_repr p.2)

/-- optimize.py lines 220-237: the schedule array built for an accepted
status: one row per day of the extracted cells, with the workplace catalog
inserted as the header row. -/
def construct_output (v : ModelVal) (worker_list : List Worker)
    (day_list : List DayInfo) : List (List String) :=
  ALL_WORKPLACES ::
    (day_list.enum.map (fun p =>
      (List.range ALL_WORKPLACES.length).flatMap
        (fun pp => extract_cells v worker_list p.2 p.1 pp)))

/-- optimize.py lines 216-239: after the single solver invocation, an
OPTIMAL or FEASIBLE status leads to schedule extraction; any other status
raises an Exception reporting the returned status. -/
def solve_result (status : CpStatus) (v : ModelVal)
    (worker_list : List Worker) (day_list : List DayInfo) :
    Except String (List (List String)) :=
  if status = CpStatus.OPTIMAL ∨ status = CpStatus.FEASIBLE then
    Except.ok (construct_output v worker_list day_list)
  else
    Except.error ("The optimization was not successful. The solver status is "
      ++ toString (statusCode status) ++ ".")

/-- parsing.py lines 86-99: parse_work_dates maps each availability token
to the boolean (token != "Ne"). -/
def parse_work_dates (work_dates : List String) : List Bool :=
  work_dates.map (fun x => x != "Ne")

/-- generate_schedule.py lines 41-43: the pre-solve validation raises when
any worker's availability vector length differs from the day-list length.
The raise message interpolates a bare generator expression in the f-string,
so it formats as a generator object repr: it carries neither a worker
identity nor any length value. -/
def validate_work_dates (worker_list : List Worker) (num_days : Nat) :
    Except String Unit :=
  if worker_list.any (fun w => w.work_dates.length != num_days) then
    Except.error ("The number of work dates does not match the calendar!\n"
      ++ " We have " ++ toString num_days
      ++ " days, but got <generator object <genexpr>>.")
  else
    Except.ok ()

/-- Gregorian leap-year rule, as used by calendar.monthrange. -/
def isLeapYear (y : Nat) : Bool :=
  (y % 4 == 0 && y % 100 != 0) || (y % 400 == 0)

/-- calendar.monthrange(year, month)[1]: the number of days in the month. -/
def daysInMonth (y m : Nat) : Nat :=
  if m == 2 then (if isLeapYear y then 29 else 28)
  else if m == 4 || m == 6 || m == 9 || m == 11 then 30
  else 31

/-- days.py: a Day is a calendar date (datetime.date subclass). -/
structure Day where
  year : Nat
  month : Nat
  day : Nat
deriving Repr, DecidableEq

/-- datetime.date(year, month, day): validates the field ranges and raises
ValueError outside them, in field order. -/
def mkDay (y m d : Nat) : Except String Day :=
  if !(1 ≤ y && y ≤ 9999) then
    Except.error "ValueError: year is out of range"
  else if !(1 ≤ m && m ≤ 12) then
    Except.error "ValueError: month must be in 1..12"
  else if !(1 ≤ d && d ≤ daysInMonth y m) then
    Except.error "ValueError: day is out of range for month"
  else
    Except.ok ⟨y, m, d⟩

/-- The list comprehension of Day objects for days 1, ..., k of a month:
constructed left to right, the first invalid date raising. -/
def buildDays (y m k : Nat) : Except String (List Day) :=
  (List.range k).mapM (fun ii => mkDay y m (ii + 1))

/-- days.py lines 58-87: generate_day_list builds the days of the month,
then, when next_month_days > 0, appends that many days of the month
computed as (month + 1) % 12, with the year incremented after December. -/
def generate_day_list (month year next_month_days : Nat) :
    Except String (List Day) := do
  let num_days := daysInMonth year month
  let day_list ← buildDays year month num_days
  if next_month_days > 0 then
    let next_month := (month + 1) % 12
    let next_year := if month == 12 then year + 1 else year
    let extra ← buildDays next_year next_month next_month_days
    pure (day_list ++ extra)
  else
    pure day_list

/-- Days from the start of the proleptic Gregorian calendar to the start of
the year (datetime ordinal arithmetic). -/
def daysBeforeYear (y : Nat) : Nat :=
  365 * (y - 1) + (y - 1) / 4 - (y - 1) / 100 + (y - 1) / 400

/-- Days from the start of the year to the start of the month. -/
def daysBeforeMonth (y m : Nat) : Nat :=
  (((List.range (m - 1)).map (fun k => daysInMonth y (k + 1))).sum)

/-- datetime.date.toordinal: day count with 0001-01-01 as ordinal 1. -/
def toOrdinal (d : Day) : Nat :=
  daysBeforeYear d.year + daysBeforeMonth d.year d.month + d.day

/-- datetime.date.isoweekday: 1 for Monday through 7 for Sunday;
0001-01-01 (ordinal 1) was a Monday. -/
def isoweekdayOf (d : Day) : Nat :=
  if toOrdinal d % 7 == 0 then 7 else toOrdinal d % 7

/-- The names bound at module level in days.py: the imports (date,
calendar, holidays) and the module's own definitions.  _month_repr is a
class attribute of Day, not a module-level name. -/
def day_module_globals : List String :=
  ["date", "calendar", "holidays", "Day", "generate_day_list"]

/-- days.py lines 16-29: the Day._month_repr class attribute mapping month
numbers to three-letter abbreviations. -/
def month_repr_attr (m : Nat) : String :=
  if m == 1 then "JAN" else if m == 2 then "FEB" else if m == 3 then "MAR"
  else if m == 4 then "APR" else if m == 5 then "MAY" else if m == 6 then "JUN"
  else if m == 7 then "JUL" else if m == 8 then "AUG" else if m == 9 then "SEP"
  else if m == 10 then "OCT" else if m == 11 then "NOV"
  else if m == 12 then "DEC" else ""

/-- days.py lines 46-55: Day.__str__.  The body computes is_workday (the
is_holiday part comes from the external holidays library, passed here as a
parameter) and then reads the bare name _month_repr.  Python resolves a
bare name in a method body against the local, module-global and builtin
scopes only - class attributes are not part of that chain - so the read
succeeds only if the module globals bind _month_repr, and raises NameError
otherwise. -/
def dayStr (d : Day) (is_holiday : Bool) : Except String String :=
  let is_weekend : Bool := isoweekdayOf d == 6 || isoweekdayOf d == 7
  let is_workday : Bool := !(is_holiday || is_weekend)
  if is_workday then
    if day_module_globals.contains "_month_repr" then
      Except.ok (toString d.day ++ "." ++ (month_repr_attr d.month).toUpper)
    else
      Except.error "NameError: name _month_repr is not defined"
  else
    if day_module_globals.contains "_month_repr" then
      Except.ok (toString d.day ++ "." ++ (month_repr_attr d.month).toLower)
    else
      Except.error "NameError: name _month_repr is not defined"

/-- A concrete worker for evaluating the model predicates: eligible
everywhere, available on the single day, indifferent to the package. -/
def wWorker (nm : String) : Worker :=
  ⟨nm, "X", ALL_WORKPLACES, [true], 0, ""⟩

/-- A concrete four-worker list. -/
def wWorkers : List Worker :=
  [wWorker "A", wWorker "B", wWorker "C", wWorker "D"]

/-- A concrete one-day list: a Monday workday. -/
def wDays : List DayInfo := [⟨true, 1⟩]

/-- Unit weights for the four catalog workplaces. -/
def wWeights : List Int := [1, 1, 1, 1]

/-- A concrete valuation solving the model on wWorkers x wDays: worker ww
staffs workplace ww on the single day, no weekend package. -/
def wVal : ModelVal where
  work := fun ww _ pp => ww == pp
  and_var := fun _ _ _ _ => false
  assigned_weekend_package := fun _ => false
  total_weekend_penalty := 0
  total_work_site := fun ww pp => if ww == pp then 1 else 0
  max_work_site := fun _ => 1
  min_work_site := fun _ => 0
  imbalance := fun _ => 1
  total_imbalance := 4
  total_work := fun _ => 1
  max_work := 1
  min_work := 1

theorem bi_nonneg (b : Bool) : 0 ≤ bi b := by cases b <;> simp [bi]

theorem bi_le_one (b : Bool) : bi b ≤ 1 := by cases b <;> simp [bi]

theorem bi_eq_one_iff (b : Bool) : bi b = 1 ↔ b = true := by
  cases b <;> simp [bi]

theorem bi_eq_zero_iff (b : Bool) : bi b = 0 ↔ b = false := by
  cases b <;> simp [bi]

theorem isum_zero (f : Nat → Int) : isum 0 f = 0 := rfl

theorem isum_succ (n : Nat) (f : Nat → Int) :
    isum (n + 1) f = isum n f + f n := by
  simp [isum, List.range_succ]

theorem isum_congr {n : Nat} {f g : Nat → Int} (h : ∀ i < n, f i = g i) :
    isum n f = isum n g := by
  induction n with
  | zero => rfl
  | succ m ih =>
    rw [isum_succ, isum_succ, ih (fun i hi => h i (Nat.lt_succ_of_lt hi)),
      h m (Nat.lt_succ_self m)]

theorem isum_nonneg {n : Nat} {f : Nat → Int} (h : ∀ i < n, 0 ≤ f i) :
    0 ≤ isum n f := by
  induction n with
  | zero => simp [isum_zero]
  | succ m ih =>
    rw [isum_succ]
    have h1 := ih (fun i hi => h i (Nat.lt_succ_of_lt hi))
    have h2 := h m (Nat.lt_succ_self m)
    omega

theorem isum_bounds {n : Nat} {f : Nat → Int} {lo hi : Int}
    (h : ∀ i < n, lo ≤ f i ∧ f i ≤ hi) :
    (n : Int) * lo ≤ isum n f ∧ isum n f ≤ (n : Int) * hi := by
  induction n with
  | zero => simp [isum_zero]
  | succ m ih =>
    rw [isum_succ]
    have h1 := ih (fun i hi => h i (Nat.lt_succ_of_lt hi))
    have h2 := h m (Nat.lt_succ_self m)
    push_cast
    push_cast at h1
    constructor <;> nlinarith [h1.1, h1.2, h2.1, h2.2]

theorem isum_eq_zero_iff {n : Nat} {f : Nat → Int} (h : ∀ i < n, 0 ≤ f i) :
    isum n f = 0 ↔ ∀ i < n, f i = 0 := by
  induction n with
  | zero => simp [isum_zero]
  | succ m ih =>
    rw [isum_succ]
    have h1 := isum_nonneg (fun i hi => h i (Nat.lt_succ_of_lt hi))
    have h2 := h m (Nat.lt_succ_self m)
    have ih2 := ih (fun i hi => h i (Nat.lt_succ_of_lt hi))
    constructor
    · intro hz
      have hf : isum m f = 0 := by omega
      have hm : f m = 0 := by omega
      intro i hi
      rcases Nat.lt_succ_iff_lt_or_eq.mp hi with hlt | heq
      · exact (ih2.mp hf) i hlt
      · rw [heq]; exact hm
    · intro hz
      have hf : isum m f = 0 :=
        ih2.mpr (fun i hi => hz i (Nat.lt_succ_of_lt hi))
      have hm : f m = 0 := hz m (Nat.lt_succ_self m)
      omega

/-- Summing 0/1 indicators over a range counts the indices where the
predicate holds. -/
theorem isum_bi_count (n : Nat) (p : Nat → Bool) :
    isum n (fun i => bi (p i)) = (((List.range n).filter p).length : Int) := by
  induction n with
  | zero => rfl
  | succ m ih =>
    rw [isum_succ, ih, List.range_succ, List.filter_append]
    cases hp : p m <;> simp [hp, bi]

theorem isum_four (f : Nat → Int) : isum 4 f = f 0 + f 1 + f 2 + f 3 := by
  show ([0, 1, 2, 3].map f).sum = f 0 + f 1 + f 2 + f 3
  simp [List.sum_cons]
  ring

theorem foldr_max_le {l : List Int} {d M : Int} (hd : d ≤ M)
    (h : ∀ x ∈ l, x ≤ M) : l.foldr max d ≤ M := by
  induction l with
  | nil => exact hd
  | cons a t ih =>
    simp only [List.foldr_cons]
    exact max_le (h a (List.mem_cons_self a t))
      (ih (fun x hx => h x (List.mem_cons_of_mem a hx)))

theorem le_foldr_max_mem {l : List Int} (d : Int) {x : Int} (hx : x ∈ l) :
    x ≤ l.foldr max d := by
  induction l with
  | nil => cases hx
  | cons a t ih =>
    simp only [List.foldr_cons]
    rcases List.mem_cons.mp hx with rfl | hm
    · exact le_max_left _ _
    · exact le_trans (ih hm) (le_max_right _ _)

/-- The fold-based maximum of a list equals any member that bounds the
whole list from above. -/
theorem listMaxOf_eq {l : List Int} {M : Int} (hmem : M ∈ l)
    (hub : ∀ x ∈ l, x ≤ M) : listMaxOf l = M := by
  unfold listMaxOf
  apply le_antisymm
  · apply foldr_max_le _ hub
    cases l with
    | nil => cases hmem
    | cons a t => exact hub a (List.mem_cons_self a t)
  · exact le_foldr_max_mem _ hmem

theorem le_foldr_min {l : List Int} {d M : Int} (hd : M ≤ d)
    (h : ∀ x ∈ l, M ≤ x) : M ≤ l.foldr min d := by
  induction l with
  | nil => exact hd
  | cons a t ih =>
    simp only [List.foldr_cons]
    exact le_min (h a (List.mem_cons_self a t))
      (ih (fun x hx => h x (List.mem_cons_of_mem a hx)))

theorem foldr_min_le_mem {l : List Int} (d : Int) {x : Int} (hx : x ∈ l) :
    l.foldr min d ≤ x := by
  induction l with
  | nil => cases hx
  | cons a t ih =>
    simp only [List.foldr_cons]
    rcases List.mem_cons.mp hx with rfl | hm
    · exact min_le_left _ _
    · exact le_trans (min_le_right _ _) (ih hm)

/-- The fold-based minimum of a list equals any member that bounds the
whole list from below. -/
theorem listMinOf_eq {l : List Int} {M : Int} (hmem : M ∈ l)
    (hlb : ∀ x ∈ l, M ≤ x) : listMinOf l = M := by
  unfold listMinOf
  apply le_antisymm
  · exact foldr_min_le_mem _ hmem
  · apply le_foldr_min _ hlb
    cases l with
    | nil => cases hmem
    | cons a t => exact hlb a (List.mem_cons_self a t)

/-- An exactly-one 0/1 sum pins the assigned-worker count to 1. -/
theorem count_of_isum_one {v : ModelVal} {n dd pp : Nat}
    (h : isum n (fun ww => bi (v.work ww dd pp)) = 1) :
    countAssigned v n dd pp = 1 := by
  rw [isum_bi_count] at h
  unfold countAssigned
  exact_mod_cast h

/-- A zero 0/1 sum pins the assigned-worker count to 0. -/
theorem count_of_isum_zero {v : ModelVal} {n dd pp : Nat}
    (h : isum n (fun ww => bi (v.work ww dd pp)) = 0) :
    countAssigned v n dd pp = 0 := by
  rw [isum_bi_count] at h
  unfold countAssigned
  exact_mod_cast h

/-- C1: in every solution accepted by construct_and_optimize (a valuation
satisfying the hard constraints, which is what an OPTIMAL or FEASIBLE
status guarantees), every day has exactly one worker assigned at each of
NZV, PORODNA and TX, and POPS has exactly one assigned worker on workdays
and zero on non-workdays. -/
theorem accepted_solution_staffing
    (worker_list : List Worker) (day_list : List DayInfo) (v : ModelVal)
    (h : hard_sat v worker_list day_list) :
    ∀ dd < day_list.length,
      countAssigned v worker_list.length dd nzv_index = 1
    ∧ countAssigned v worker_list.length dd porodna_index = 1
    ∧ countAssigned v worker_list.length dd tx_index = 1
    ∧ ((day_list.getD dd defaultDayInfo).is_workday = true →
        countAssigned v worker_list.length dd pops_index = 1)
    ∧ ((day_list.getD dd defaultDayInfo).is_workday = false →
        countAssigned v worker_list.length dd pops_index = 0) := by
  intro dd hdd
  obtain ⟨h1, h2, h3, h4, h5⟩ := h.1 dd hdd
  exact ⟨count_of_isum_one h1, count_of_isum_one h2, count_of_isum_one h3,
    fun hw => count_of_isum_one (h4 hw),
    fun hw => count_of_isum_zero (h5 hw)⟩

/-- Witness for C1 at the concrete instance: the hard constraints hold and
the staffing counts follow. -/
theorem accepted_solution_staffing_witness :
    hard_sat wVal wWorkers wDays
    ∧ (countAssigned wVal wWorkers.length 0 nzv_index = 1
      ∧ countAssigned wVal wWorkers.length 0 porodna_index = 1
      ∧ countAssigned wVal wWorkers.length 0 tx_index = 1
      ∧ ((wDays.getD 0 defaultDayInfo).is_workday = true →
          countAssigned wVal wWorkers.length 0 pops_index = 1)
      ∧ ((wDays.getD 0 defaultDayInfo).is_workday = false →
          countAssigned wVal wWorkers.length 0 pops_index = 0)) :=
  ⟨by decide, accepted_solution_staffing wWorkers wDays wVal (by decide) 0
    (by decide)⟩

theorem nzv_index_eq : nzv_index = 0 := rfl

theorem pops_index_eq : pops_index = 1 := rfl

theorem porodna_index_eq : porodna_index = 2 := rfl

theorem tx_index_eq : tx_index = 3 := rfl

theorem workplaces_length_eq : ALL_WORKPLACES.length = 4 := rfl

/-- Under the availability constraint the worker's assignment sum on a day
is at most 1 whether or not the worker is available. -/
theorem avail_sum_le_one {v : ModelVal} {wl : List Worker} {nd ww dd : Nat}
    (havail : availability_sat v wl nd) (hww : ww < wl.length)
    (hdd : dd < nd) :
    isum ALL_WORKPLACES.length (fun pp => bi (v.work ww dd pp)) ≤ 1 := by
  obtain ⟨h1, h2⟩ := havail ww hww dd hdd
  cases hb : (wl.getD ww defaultWorker).work_dates.getD dd false
  · have := h2 hb
    omega
  · exact h1 hb

/-- The linear rest constraint forces the next-day assignment sum to zero
whenever an intensive workplace is assigned. -/
theorem rest_zero_next {v : ModelVal} {ww dd : Nat}
    (hc : bi (v.work ww dd nzv_index) + bi (v.work ww dd porodna_index)
      + bi (v.work ww dd pops_index)
      + isum ALL_WORKPLACES.length (fun pp => bi (v.work ww (dd + 1) pp)) ≤ 1)
    (hint : v.work ww dd nzv_index = true ∨ v.work ww dd porodna_index = true
      ∨ v.work ww dd pops_index = true) :
    isum ALL_WORKPLACES.length (fun pp => bi (v.work ww (dd + 1) pp)) = 0 := by
  have hnn : ∀ i < ALL_WORKPLACES.length, (0 : Int) ≤ bi (v.work ww (dd + 1) i) :=
    fun i _ => bi_nonneg _
  have hge := isum_nonneg hnn
  have ha := bi_nonneg (v.work ww dd nzv_index)
  have hb := bi_nonneg (v.work ww dd porodna_index)
  have hcc := bi_nonneg (v.work ww dd pops_index)
  rcases hint with h1 | h1 | h1 <;>
    { have hone := (bi_eq_one_iff _).mpr h1
      omega }

/-- C2: for every worker and every day but the last, the linear constraint
work[NZV] + work[PORODNA] + work[POPS] on day dd plus the total assignments
on day dd+1 being at most 1 forces zero assignments on day dd+1 after an
intensive shift, and under the at-most-one-shift-per-day availability
constraint the linear constraint is equivalent to the indicator
formulation. -/
theorem rest_after_intensive_spec (worker_list : List Worker)
    (num_days : Nat) (v : ModelVal) :
    (rest_sat v worker_list.length num_days →
      ∀ ww < worker_list.length, ∀ dd < num_days - 1,
        (v.work ww dd nzv_index = true ∨ v.work ww dd porodna_index = true
          ∨ v.work ww dd pops_index = true) →
        ∀ pp < ALL_WORKPLACES.length, v.work ww (dd + 1) pp = false)
  ∧ (availability_sat v worker_list num_days →
      (rest_sat v worker_list.length num_days ↔
        rest_indicator v worker_list.length num_days)) := by
  constructor
  · intro hrest ww hww dd hdd hint pp hpp
    have hz := rest_zero_next (hrest ww hww dd hdd) hint
    have hnn : ∀ i < ALL_WORKPLACES.length, (0 : Int) ≤ bi (v.work ww (dd + 1) i) :=
      fun i _ => bi_nonneg _
    exact (bi_eq_zero_iff _).mp (((isum_eq_zero_iff hnn).mp hz) pp hpp)
  · intro havail
    constructor
    · intro hrest ww hww dd hdd hint
      exact rest_zero_next (hrest ww hww dd hdd) hint
    · intro hind ww hww dd hdd
      have hT := avail_sum_le_one havail hww (show dd < num_days by omega)
      have hS := avail_sum_le_one havail hww (show dd + 1 < num_days by omega)
      rw [workplaces_length_eq] at hT
      rw [isum_four] at hT
      by_cases hany : v.work ww dd nzv_index = true
        ∨ v.work ww dd porodna_index = true ∨ v.work ww dd pops_index = true
      · have hz := hind ww hww dd hdd hany
        have h3 := bi_nonneg (v.work ww dd tx_index)
        rw [tx_index_eq] at h3
        rw [nzv_index_eq, porodna_index_eq, pops_index_eq]
        omega
      · push_neg at hany
        obtain ⟨h0, h2, h1⟩ := hany
        have hb0 := (bi_eq_zero_iff _).mpr (Bool.eq_false_iff.mpr h0)
        have hb2 := (bi_eq_zero_iff _).mpr (Bool.eq_false_iff.mpr h2)
        have hb1 := (bi_eq_zero_iff _).mpr (Bool.eq_false_iff.mpr h1)
        omega

/-- Witness for C2 at the concrete instance. -/
theorem rest_after_intensive_spec_witness :
    rest_sat wVal wWorkers.length wDays.length
    ∧ availability_sat wVal wWorkers wDays.length
    ∧ (rest_sat wVal wWorkers.length wDays.length ↔
        rest_indicator wVal wWorkers.length wDays.length) :=
  ⟨by decide, by decide,
    (rest_after_intensive_spec wWorkers wDays.length wVal).2 (by decide)⟩

/-- C3: on any valuation satisfying the objective-block constraints, the
minimized objective equals (global max weighted total - global min weighted
total) plus penalty_weekend_package times the weekend penalty plus
penalty_equal_distribution times the total imbalance, where the weighted
totals are the per-worker sums, over all days and all catalog workplaces,
of the caller-supplied weight (positionally matched to the catalog) times
the assignment variable. -/
theorem objective_matches_spec (worker_list : List Worker)
    (num_days : Nat) (v : ModelVal) (workplace_weights : List Int)
    (penalty_weekend_package penalty_equal_distribution : Int)
    (hobj : objective_link_sat v worker_list.length num_days workplace_weights) :
    objectiveExpr v penalty_weekend_package penalty_equal_distribution =
      (maxOver worker_list.length
          (weighted_total_of v workplace_weights num_days)
        - minOver worker_list.length
          (weighted_total_of v workplace_weights num_days))
      + penalty_weekend_package * v.total_weekend_penalty
      + penalty_equal_distribution * v.total_imbalance := by
  obtain ⟨hlink, _, hubM, hmemM, _, hlbm, hmemm⟩ := hobj
  have hwt : ∀ ww < worker_list.length,
      weighted_total_of v workplace_weights num_days ww = v.total_work ww := by
    intro ww hww
    exact ((hlink ww hww).2).symm
  have hmax : maxOver worker_list.length
      (weighted_total_of v workplace_weights num_days) = v.max_work := by
    unfold maxOver
    apply listMaxOf_eq
    · obtain ⟨ww, hww, heq⟩ := hmemM
      refine List.mem_map.mpr ⟨ww, List.mem_range.mpr hww, ?_⟩
      rw [hwt ww hww, heq]
    · intro x hx
      obtain ⟨ww, hwwr, rfl⟩ := List.mem_map.mp hx
      have hww := List.mem_range.mp hwwr
      rw [hwt ww hww]
      exact hubM ww hww
  have hmin : minOver worker_list.length
      (weighted_total_of v workplace_weights num_days) = v.min_work := by
    unfold minOver
    apply listMinOf_eq
    · obtain ⟨ww, hww, heq⟩ := hmemm
      refine List.mem_map.mpr ⟨ww, List.mem_range.mpr hww, ?_⟩
      rw [hwt ww hww, heq]
    · intro x hx
      obtain ⟨ww, hwwr, rfl⟩ := List.mem_map.mp hx
      have hww := List.mem_range.mp hwwr
      rw [hwt ww hww]
      exact hlbm ww hww
  unfold objectiveExpr
  rw [hmax, hmin]
  ring

/-- Witness for C3 at the concrete instance, with penalty coefficients 2
and 3. -/
theorem objective_matches_spec_witness :
    objective_link_sat wVal wWorkers.length wDays.length wWeights
    ∧ objectiveExpr wVal 2 3 =
      (maxOver wWorkers.length (weighted_total_of wVal wWeights wDays.length)
        - minOver wWorkers.length (weighted_total_of wVal wWeights wDays.length))
      + 2 * wVal.total_weekend_penalty + 3 * wVal.total_imbalance :=
  ⟨by decide,
    objective_matches_spec wWorkers wDays.length wVal wWeights 2 3 (by decide)⟩

/-- C4: on any valuation satisfying the weekend-package block with worker
preferences in {-1, 0, +1}, the total weekend penalty is the sum over
workers of minus the package indicator times the signed preference; the
package indicator holds iff some per-Friday per-combination indicator
holds; each such indicator holds iff both the Friday and the Sunday
assignment hold; the total lies in [-numWorkers, numWorkers]; and an
indifferent worker contributes zero regardless of assignment. -/
theorem weekend_penalty_spec (worker_list : List Worker)
    (day_list : List DayInfo) (v : ModelVal)
    (hwk : weekend_sat v worker_list day_list)
    (hpref : ∀ w ∈ worker_list, w.weekend_package = -1 ∨ w.weekend_package = 0
      ∨ w.weekend_package = 1) :
    v.total_weekend_penalty = isum worker_list.length (fun ww =>
      -(bi (v.assigned_weekend_package ww))
        * (worker_list.getD ww defaultWorker).weekend_package)
  ∧ (∀ ww < worker_list.length,
      (v.assigned_weekend_package ww = true ↔
        ∃ dd ∈ fridays day_list, ∃ c ∈ site_combinations,
          v.and_var ww dd c.1 c.2 = true))
  ∧ (∀ ww < worker_list.length, ∀ dd ∈ fridays day_list,
      ∀ c ∈ site_combinations,
        (v.and_var ww dd c.1 c.2 = true ↔
          (v.work ww dd c.1 = true ∧ v.work ww (dd + 2) c.2 = true)))
  ∧ (-(worker_list.length : Int) ≤ v.total_weekend_penalty
      ∧ v.total_weekend_penalty ≤ (worker_list.length : Int))
  ∧ (∀ ww < worker_list.length,
      (worker_list.getD ww defaultWorker).weekend_package = 0 →
      -(bi (v.assigned_weekend_package ww))
        * (worker_list.getD ww defaultWorker).weekend_package = 0) := by
  obtain ⟨hand, hsum1, hlinkpkg, hdom, htot⟩ := hwk
  have hprefD : ∀ ww < worker_list.length,
      (worker_list.getD ww defaultWorker).weekend_package = -1
      ∨ (worker_list.getD ww defaultWorker).weekend_package = 0
      ∨ (worker_list.getD ww defaultWorker).weekend_package = 1 := by
    intro ww hww
    apply hpref
    rw [List.getD_eq_getElem worker_list defaultWorker hww]
    exact List.getElem_mem hww
  refine ⟨?_, ?_, ?_, ?_, ?_⟩
  · rw [htot]
    apply isum_congr
    intro ww hww
    ring
  · intro ww hww
    constructor
    · exact (hlinkpkg ww hww).1
    · intro hex
      cases hass : v.assigned_weekend_package ww with
      | true => rfl
      | false =>
        obtain ⟨dd, hdd, c, hc, htrue⟩ := hex
        have hz := (hlinkpkg ww hww).2 hass dd hdd c hc
        simp [hz] at htrue
  · intro ww hww dd hdd c hc
    constructor
    · exact (hand ww hww dd hdd c hc).1
    · intro hpair
      cases hav : v.and_var ww dd c.1 c.2 with
      | true => rfl
      | false =>
        rcases (hand ww hww dd hdd c hc).2 hav with hz | hz
        · rw [hpair.1] at hz
          cases hz
        · rw [hpair.2] at hz
          cases hz
  · have hbnd : ∀ ww < worker_list.length,
        (-1 : Int) ≤ bi (v.assigned_weekend_package ww)
          * (worker_list.getD ww defaultWorker).weekend_package * (-1)
        ∧ bi (v.assigned_weekend_package ww)
          * (worker_list.getD ww defaultWorker).weekend_package * (-1) ≤ 1 := by
      intro ww hww
      rcases hprefD ww hww with hp | hp | hp <;> rw [hp] <;>
        cases hb : v.assigned_weekend_package ww <;> simp [bi]
    have hib := isum_bounds hbnd
    rw [htot]
    constructor <;> linarith [hib.1, hib.2]
  · intro ww hww hzero
    rw [hzero]
    ring

/-- Witness for C4 at the concrete instance. -/
theorem weekend_penalty_spec_witness :
    weekend_sat wVal wWorkers wDays
    ∧ (∀ w ∈ wWorkers, w.weekend_package = -1 ∨ w.weekend_package = 0
        ∨ w.weekend_package = 1)
    ∧ (-(wWorkers.length : Int) ≤ wVal.total_weekend_penalty
        ∧ wVal.total_weekend_penalty ≤ (wWorkers.length : Int)) :=
  ⟨by decide, by decide,
    (weekend_penalty_spec wWorkers wDays wVal (by decide) (by decide)).2.2.2.1⟩

/-- C5: on any valuation satisfying the balance block, each worker's
imbalance equals max minus min of that worker's per-workplace assignment
totals taken over the eligible workplaces only, the total imbalance is the
sum of the per-worker imbalances, and it lies in
[0, numWorkers * numDays]. -/
theorem imbalance_spec (worker_list : List Worker) (num_days : Nat)
    (v : ModelVal)
    (him : imbalance_sat v worker_list num_days) :
    (∀ ww < worker_list.length,
      v.imbalance ww =
        listMaxOf ((eligible_indices (worker_list.getD ww defaultWorker)).map
          (spec_site_total v num_days ww))
        - listMinOf ((eligible_indices (worker_list.getD ww defaultWorker)).map
          (spec_site_total v num_days ww)))
  ∧ v.total_imbalance = isum worker_list.length (fun ww => v.imbalance ww)
  ∧ 0 ≤ v.total_imbalance
  ∧ v.total_imbalance ≤ (worker_list.length : Int) * (num_days : Int) := by
  obtain ⟨hlink, hmm, hdom, htot⟩ := him
  have hbnd : ∀ ww < worker_list.length,
      (0 : Int) ≤ v.imbalance ww ∧ v.imbalance ww ≤ (num_days : Int) := by
    intro ww hww
    obtain ⟨_, _, _, _, _, _, hd3, _⟩ := hmm ww hww
    exact hd3
  have hib := isum_bounds hbnd
  refine ⟨?_, htot, ?_, ?_⟩
  · intro ww hww
    obtain ⟨hd1, hub, hmem, hd2, hlb, hmem2, hd3, himb⟩ := hmm ww hww
    have he : (eligible_indices (worker_list.getD ww defaultWorker)).map
          (v.total_work_site ww)
        = (eligible_indices (worker_list.getD ww defaultWorker)).map
          (spec_site_total v num_days ww) :=
      List.map_congr_left (fun pp hpp => (hlink ww hww pp hpp).2)
    rw [himb, ← he, listMaxOf_eq hmem hub, listMinOf_eq hmem2 hlb]
  · rw [htot]
    linarith [hib.1]
  · rw [htot]
    linarith [hib.2]

/-- Witness for C5 at the concrete instance. -/
theorem imbalance_spec_witness :
    imbalance_sat wVal wWorkers wDays.length
    ∧ wVal.imbalance 0 =
        listMaxOf ((eligible_indices (wWorkers.getD 0 defaultWorker)).map
          (spec_site_total wVal wDays.length 0))
        - listMinOf ((eligible_indices (wWorkers.getD 0 defaultWorker)).map
          (spec_site_total wVal wDays.length 0)) :=
  ⟨by decide,
    (imbalance_spec wWorkers wDays.length wVal (by decide)).1 0 (by decide)⟩

/-- C6: the driver accepts solver status OPTIMAL or FEASIBLE and extracts
the schedule; any other status (INFEASIBLE included) yields an error that
reports the returned status and produces no schedule output. -/
theorem solver_status_handling (v : ModelVal) (worker_list : List Worker)
    (day_list : List DayInfo) :
    solve_result CpStatus.OPTIMAL v worker_list day_list =
      Except.ok (construct_output v worker_list day_list)
  ∧ solve_result CpStatus.FEASIBLE v worker_list day_list =
      Except.ok (construct_output v worker_list day_list)
  ∧ ∀ status : CpStatus, status ≠ CpStatus.OPTIMAL →
      status ≠ CpStatus.FEASIBLE →
      solve_result status v worker_list day_list =
        Except.error
          ("The optimization was not successful. The solver status is "
            ++ toString (statusCode status) ++ ".") := by
  refine ⟨by simp [solve_result], by simp [solve_result], ?_⟩
  intro status h1 h2
  cases status <;> simp [solve_result] <;> first
    | exact absurd rfl h1
    | exact absurd rfl h2

/-- Witness for C6 at the INFEASIBLE status. -/
theorem solver_status_handling_witness :
    CpStatus.INFEASIBLE ≠ CpStatus.OPTIMAL
    ∧ CpStatus.INFEASIBLE ≠ CpStatus.FEASIBLE
    ∧ solve_result CpStatus.INFEASIBLE wVal wWorkers wDays =
        Except.error
          ("The optimization was not successful. The solver status is "
            ++ toString (statusCode CpStatus.INFEASIBLE) ++ ".") :=
  ⟨by decide, by decide,
    (solver_status_handling wVal wWorkers wDays).2.2 CpStatus.INFEASIBLE
      (by decide) (by decide)⟩

/-- C7: evaluating the pre-solve length check at a failing input (a worker
whose availability vector has 2 entries against a 3-day calendar): the run
is rejected before model construction, but the raised message -- whose
f-string interpolates a bare generator expression -- formats a generator
object repr and names neither the offending worker nor any length. -/
theorem work_dates_validation_rejects :
    validate_work_dates [⟨"A", "B", ["NZV"], [true, true], 0, ""⟩] 3 =
      Except.error ("The number of work dates does not match the calendar!\n"
        ++ " We have " ++ toString 3
        ++ " days, but got <generator object <genexpr>>.") := by
  rfl

/-- C8: generate_day_list computes the appended month as (month + 1) % 12,
which is 0 for November, so Day(year, 0, 1) raises ValueError and no
November-plus-next-month schedule is ever produced, while the same call
for October succeeds. -/
theorem generate_day_list_november_bug :
    generate_day_list 11 2024 1 =
      Except.error "ValueError: month must be in 1..12"
    ∧ (generate_day_list 10 2024 1).isOk = true := by
  constructor <;> rfl

/-- C9: parse_work_dates maps each token to (token != Ne): the result
has the input length, an entry is False exactly when the token equals Ne,
and every other token -- misspellings and case variants included -- is
interpreted as available; the function is total and never raises. -/
theorem parse_work_dates_spec (xs : List String) :
    (parse_work_dates xs).length = xs.length
    ∧ ∀ i, i < xs.length →
      ((parse_work_dates xs).getD i true = false ↔ xs.getD i "" = "Ne") := by
  constructor
  · simp [parse_work_dates]
  · intro i hi
    have hi2 : i < (parse_work_dates xs).length := by
      simpa [parse_work_dates] using hi
    rw [List.getD_eq_getElem _ _ hi2, List.getD_eq_getElem _ _ hi]
    simp [parse_work_dates]

/-- Witness for C9: the lowercase token ne is not recognized as
unavailability, so the entry parses as available. -/
theorem parse_work_dates_spec_witness :
    2 < (["", "Ne", "ne"] : List String).length
    ∧ ((parse_work_dates ["", "Ne", "ne"]).getD 2 true = false ↔
        (["", "Ne", "ne"] : List String).getD 2 "" = "Ne") :=
  ⟨by decide, (parse_work_dates_spec ["", "Ne", "ne"]).2 2 (by decide)⟩

/-- C10: Day.__str__ reads _month_repr as a bare name, which is bound
neither locally nor at module level, so every call raises NameError no
matter the date or its holiday classification, and the documented
22.DEC / 25.dec form is never produced. -/
theorem dayStr_always_raises (d : Day) (is_holiday : Bool) :
    dayStr d is_holiday =
      Except.error "NameError: name _month_repr is not defined" := by
  unfold dayStr
  simp [day_module_globals]
